import Mathlib

/-!
Shallow embedding of the `ollekia` client library (Python), covering the
components the verification claims are about:

* `QueryBuilder.build`            (src/search_expr.py)
* `AsyncSearch.__init__` query/param normalization, `_scrape`,
  `_full_text_search`             (src/search.py)
* `AsyncBaseFile.__init__` name normalization and `AsyncFile.download`
  (src/file.py), with `utils.get_md5` (src/utils.py)

Python dictionaries are modelled as association lists with Python's
assignment semantics (replace-in-place, else append), Python truthiness is
made explicit at each use site, and two places where the source forgets to
`await` a coroutine are embedded by the value Python actually computes
there (a coroutine object is always truthy; a coroutine object is never
`==` to a string).  Every definition follows the source line by line; the
theorems at the end settle the claims.
-/

namespace Ollekia

/-! ## Query Builder (src/search_expr.py) -/

namespace QueryBuilder

/-- A Python dict mapping keyword-kind (`"and"`, `"or"`, `"alone"`) to a
list of keywords; `rule.get("logic", \x7b\x7d)` with an absent key and an
empty dict coincide as the empty association list. -/
abbrev Logic := List (String × List String)

/-- `logic.get(k, [])` on the keyword dict. -/
def logicGet (l : Logic) (k : String) : List String :=
  match l.find? (fun p => p.1 == k) with
  | some p => p.2
  | none => []

/-- One range entry of a date rule (`\x7b"from": .., "to": ..\x7d`). -/
structure DateRange where
  dfrom : String
  dto : String
deriving DecidableEq

/-- One entry of the `to_be` rule list.  `field?` models presence of the
`"field"` key, `date?` presence of the `"date"` key (holding that dict's
`"ranges"` list, empty when absent), `logic` the `"logic"` dict. -/
structure Rule where
  field? : Option String := none
  logic : Logic := []
  date? : Option (List DateRange) := none
deriving DecidableEq

/-- A value of `positive_rules_map`: either the precomputed date clause
string or a keyword-logic dict. -/
inductive RuleVal where
  | str (s : String)
  | logic (l : Logic)
deriving DecidableEq

/-- Python truthiness of a rule-map value: the empty string and the empty
dict are falsy. -/
def RuleVal.falsy : RuleVal → Bool
  | .str s => s == ""
  | .logic l => l.isEmpty

/-- Python dict assignment `m[k] = v`: replace in place, else append. -/
def mapSet (m : List (String × RuleVal)) (k : String) (v : RuleVal) :
    List (String × RuleVal) :=
  match m with
  | [] => [(k, v)]
  | (k', v') :: rest =>
      if k' == k then (k, v) :: rest else (k', v') :: mapSet rest k v

/-- Python `m.get(k)` (default `None`). -/
def mapGet (m : List (String × RuleVal)) (k : String) : Option RuleVal :=
  match m.find? (fun p => p.1 == k) with
  | some p => some p.2
  | none => none

/-- The date clause string `f"date:[\x7bfrom\x7d TO \x7bto\x7d]"`. -/
def dateClause (r : DateRange) : String :=
  "date:[" ++ r.dfrom ++ " TO " ++ r.dto ++ "]"

/-- One iteration of the `for rule in self.config.get("to_be", [])` loop
building `positive_rules_map`. -/
def addRule (m : List (String × RuleVal)) (r : Rule) :
    List (String × RuleVal) :=
  match r.field? with
  | some f => mapSet m f (.logic r.logic)
  | none =>
      match r.date? with
      | some (dr :: _) => mapSet m "date" (.str (dateClause dr))
      | _ => m

/-- `positive_rules_map` after the whole `to_be` loop. -/
def positiveRulesMap (rules : List Rule) : List (String × RuleVal) :=
  rules.foldl addRule []

/-- The quoted clause `f'\x7bfield_name\x7d:"\x7bkw\x7d"'`. -/
def clause (fieldName kw : String) : String :=
  fieldName ++ ":\"" ++ kw ++ "\""

/-- Python `sep.join(parts)`. -/
def pyJoin (sep : String) : List String → String
  | [] => ""
  | [x] => x
  | x :: xs => x ++ sep ++ pyJoin sep xs

/-- The parts contributed by one field of a group (the body of the
`for field_name in group` loop): nothing when the rule is absent or falsy;
the stored string for the date special case; otherwise one quoted clause
per keyword of the `and`, `or` and `alone` lists, in that order.  (A
string value under a key other than `"date"` cannot occur: only the date
branch stores strings, and in the source it would raise `AttributeError`;
the model returns `[]` on that unreachable branch.) -/
def fieldParts (m : List (String × RuleVal)) (fieldName : String) :
    List String :=
  match mapGet m fieldName with
  | none => []
  | some rv =>
      if rv.falsy then []
      else
        match rv with
        | .str s => if fieldName == "date" then [s] else []
        | .logic l =>
            (logicGet l "and").map (clause fieldName) ++
            (logicGet l "or").map (clause fieldName) ++
            (logicGet l "alone").map (clause fieldName)

/-- `all_group_parts` for one group. -/
def groupParts (m : List (String × RuleVal)) (group : List String) :
    List String :=
  (group.map (fieldParts m)).flatten

/-- What one group contributes to `grouped_queries`: omitted when it has
no parts, the single part bare, several parts OR-joined in parentheses. -/
def groupClause? (m : List (String × RuleVal)) (group : List String) :
    Option String :=
  match groupParts m group with
  | [] => none
  | [p] => some p
  | parts => some ("(" ++ pyJoin " OR " parts ++ ")")

/-- One entry of the `not_to_be` rule list. -/
structure NegRule where
  field? : Option String := none
  logic : Logic := []
deriving DecidableEq

/-- The `NOT` clauses of one negative rule: emitted only when the field is
truthy and the `alone` list is non-empty. -/
def negParts (r : NegRule) : List String :=
  match r.field? with
  | some f =>
      if f ≠ "" && !(logicGet r.logic "alone").isEmpty then
        (logicGet r.logic "alone").map (fun kw => "NOT " ++ clause f kw)
      else []
  | none => []

/-- `not_queries` after the whole `not_to_be` loop. -/
def notQueries (rules : List NegRule) : List String :=
  (rules.map negParts).flatten

/-- The configuration dictionary handed to `QueryBuilder`; absent keys
default to empty collections exactly as `config.get(.., [])` does. -/
structure Config where
  to_be : List Rule := []
  groups : List (List String) := []
  not_to_be : List NegRule := []
deriving DecidableEq

/-- `QueryBuilder.build` (src/search_expr.py lines 8-68): grouped queries,
then NOT queries, falsy entries dropped by `filter(None, ..)`, joined by
`" AND "`. -/
def build (cfg : Config) : String :=
  let m := positiveRulesMap cfg.to_be
  let grouped := cfg.groups.filterMap (groupClause? m)
  let nots := notQueries cfg.not_to_be
  pyJoin " AND " ((grouped ++ nots).filter (fun s => s ≠ ""))

/-- The final output assembled the way the specification describes it:
the AND-join of all non-empty group clauses followed by all NOT clauses,
with no further filtering. -/
def buildSpec (cfg : Config) : String :=
  let m := positiveRulesMap cfg.to_be
  pyJoin " AND "
    (cfg.groups.filterMap (groupClause? m) ++ notQueries cfg.not_to_be)

end QueryBuilder

/-! ## Pagination Engine (src/search.py) -/

namespace Search

/-- A Python value stored in a parameter dict (`params` holds strings and
the int `1` for `"page"`); `is`-identity with the bool `False` is needed
by `_full_text_search`, so bools are a case too. -/
inductive PyV where
  | str (s : String)
  | int (n : Int)
  | bool (b : Bool)
deriving DecidableEq

/-- Python `x is False`: true only for the bool `False` itself; a string
(such as `str(False) = "False"`) is never identical to the bool. -/
def PyV.isFalse : PyV → Bool
  | .bool false => true
  | _ => false

/-- A parameter dict, insertion ordered. -/
abbrev Params := List (String × PyV)

/-- Python dict assignment `d[k] = v`. -/
def pSet (d : Params) (k : String) (v : PyV) : Params :=
  match d with
  | [] => [(k, v)]
  | (k', v') :: rest =>
      if k' == k then (k, v) :: rest else (k', v') :: pSet rest k v

/-- Python `k in d`. -/
def pHas (d : Params) (k : String) : Bool :=
  d.any (fun p => p.1 == k)

/-- Python `d[k]` / `d.get(k)`: the value of the (unique) entry whose
key matches. -/
def pGet : Params → String → Option PyV
  | [], _ => none
  | p :: rest, k => if p.1 == k then some p.2 else pGet rest k

/-- Python `del d[k]`. -/
def pDel (d : Params) (k : String) : Params :=
  d.filter (fun p => p.1 != k)

/-- Python `d.update(u)`: assign every entry of `u` into `d`, in order. -/
def pUpdate (d u : Params) : Params :=
  u.foldl (fun acc p => pSet acc p.1 p.2) d

/-- The fields of `SearchOptions` that `AsyncSearch.__init__` reads. -/
structure SearchOptions where
  query : String := ""
  params : Params := []
  fts : Bool := false
  dsl_fts : Bool := false
deriving DecidableEq

/-- `AsyncSearch.__init__` normalization (src/search.py lines 17-54):
flag canonicalisation, the `"!L "` literal-match marker, the injected
defaults (`q`, and `count=10000` or `output=json` or `page=1` depending on
the caller's `page`/`rows` keys), the `index`→`scope` aliasing, and the
final `default_params.copy(); update(caller params)` merge. -/
def initNormalize (so : SearchOptions) : SearchOptions :=
  let dsl := so.dsl_fts
  let fts := dsl || so.fts
  let query := if fts && !dsl then "!L " ++ so.query else so.query
  let defaults : Params := [("q", .str query)]
  let (defaults, callerParams) :=
    if !pHas so.params "page" then
      if pHas so.params "rows" then
        (defaults, pSet so.params "page" (.int 1))
      else
        (pSet defaults "count" (.str "10000"), so.params)
    else
      (pSet defaults "output" (.str "json"), so.params)
  let callerParams :=
    match pGet callerParams "index" with
    | some v => pDel (pSet callerParams "scope" v) "index"
    | none => callerParams
  { query := query
    params := pUpdate defaults callerParams
    fts := fts
    dsl_fts := dsl }

/-! ### `_scrape` (src/search.py lines 100-159)

The transport is a finite script of responses; one script entry is
consumed per POST request the loop issues. -/

/-- The JSON body of one scrape response.  `error?` is `json.get("error")`
(`none` for an absent key; the empty string is falsy as well), `items?`
models presence of the `"items"` key: an absent key makes
`json_response["items"]` raise `KeyError`. -/
structure ScrapeJson where
  error? : Option String := none
  total : Int := 0
  items? : Option (List String) := none
deriving DecidableEq

/-- Python truthiness of `json_response.get("error")`. -/
def errTruthy : Option String → Bool
  | some s => s ≠ ""
  | none => false

/-- One transport answer to a scrape POST: a JSON body, or an exception
raised by the request (`aiohttp.ClientResponseError` /
`aiohttp.ClientError`, both of which the loop catches and breaks on). -/
inductive ScrapeResp where
  | ok (j : ScrapeJson)
  | httpErr
  | netErr
deriving DecidableEq

/-- What the `_scrape` generator yields: an item of an `items` list, or -
when the body carries a truthy `error` - the whole JSON document. -/
inductive ScrapeYield where
  | item (s : String)
  | errJson (j : ScrapeJson)
deriving DecidableEq

/-- The result of running `_scrape` against a finite transport script:
the yielded elements, the number of POST requests issued, and whether the
loop terminated by itself.  `terminated = false` means the script ran out
while the loop was about to issue yet another request. -/
structure ScrapeRun where
  yields : List ScrapeYield
  requests : Nat
  terminated : Bool
deriving DecidableEq

/-- `_scrape`'s `while True` loop (src/search.py lines 117-159), one
script entry per iteration: an exception breaks; a truthy `error` yields
the JSON document and continues; an absent `items` key raises `KeyError`,
caught by `except Exception` - break; otherwise every item is yielded and
the loop runs again.  Note there is no break on an empty `items` list. -/
def scrapeRun : List ScrapeResp → ScrapeRun
  | [] => ⟨[], 0, false⟩
  | r :: rest =>
      match r with
      | .httpErr => ⟨[], 1, true⟩
      | .netErr => ⟨[], 1, true⟩
      | .ok j =>
          let pre : List ScrapeYield :=
            if errTruthy j.error? then [.errJson j] else []
          match j.items? with
          | none => ⟨pre, 1, true⟩
          | some its =>
              let next := scrapeRun rest
              ⟨pre ++ its.map .item ++ next.yields, next.requests + 1,
               next.terminated⟩

/-! ### `_full_text_search` (src/search.py lines 161-224) -/

/-- The JSON body of one FTS response: `_scroll_id` and
`hits.hits` (`none` when the path is absent). -/
structure FtsJson where
  scrollId : Option String := none
  hits? : Option (List String) := none
deriving DecidableEq

/-- One transport answer to an FTS POST: a JSON body or an exception;
both exception handlers only log and fall through, so the loop issues the
next request. -/
inductive FtsResp where
  | ok (j : FtsJson)
  | httpErr
  | netErr
deriving DecidableEq

/-- The result of running `_full_text_search` against a finite script:
the yielded hit batches (the generator yields whole batches), the number
of POST requests, and whether the loop terminated by itself. -/
structure FtsRun where
  yields : List (List String)
  requests : Nat
  terminated : Bool
deriving DecidableEq

/-- The initial `data["scroll"]` value: the string `"true"`, replaced by
`str(False) = "False"` when the caller's params carry a `"size"` key
(src/search.py lines 166, 172-174).  Both are strings, never the bool. -/
def ftsScrollVal (sizeInParams : Bool) : PyV :=
  if sizeInParams then .str "False" else .str "true"

/-- `_full_text_search`'s `while True` loop (src/search.py lines
176-224), one script entry per iteration.  `if not hits: return`
terminates on an absent or empty hit list; otherwise the batch is yielded
and the loop breaks only when `data["scroll"] is False` - an identity
comparison of a string against the bool, so never.  Exceptions are logged
and the loop continues. -/
def ftsRun (scrollVal : PyV) : List FtsResp → FtsRun
  | [] => ⟨[], 0, false⟩
  | r :: rest =>
      match r with
      | .httpErr =>
          let next := ftsRun scrollVal rest
          ⟨next.yields, next.requests + 1, next.terminated⟩
      | .netErr =>
          let next := ftsRun scrollVal rest
          ⟨next.yields, next.requests + 1, next.terminated⟩
      | .ok j =>
          match j.hits? with
          | none => ⟨[], 1, true⟩
          | some [] => ⟨[], 1, true⟩
          | some hs =>
              if PyV.isFalse scrollVal then ⟨[hs], 1, true⟩
              else
                let next := ftsRun scrollVal rest
                ⟨[hs] ++ next.yields, next.requests + 1, next.terminated⟩

end Search

/-! ## Transfer Engine (src/file.py, src/utils.py) -/

namespace Transfer

/-- `AsyncBaseFile.__init__` name normalization (src/file.py lines 38-39):
`if name: name = name.strip("/")`.  Python `strip("/")` removes leading
and trailing `'/'` characters. -/
def stripSlashes (l : List Char) : List Char :=
  ((l.dropWhile (fun c => c == '/')).reverse.dropWhile
    (fun c => c == '/')).reverse

/-- The stored `self.name` as a function of the constructor's `name`
argument: the empty string is falsy and left untouched, any other string
is stripped of leading and trailing slashes. -/
def normalizeName (name : String) : String :=
  if name ≠ "" then ⟨stripSlashes name.data⟩ else name

/-- Python `f.readlines()` on a text file: split after every newline,
keeping the newline in each line; a final chunk without a newline is kept
when non-empty. -/
def readlinesAux : List Char → List Char → List String
  | [], acc => if acc.isEmpty then [] else [⟨acc.reverse⟩]
  | c :: cs, acc =>
      if c == '\n' then
        String.mk (c :: acc).reverse :: readlinesAux cs []
      else readlinesAux cs (c :: acc)

/-- `readlines` of a whole file content. -/
def readlines (s : String) : List String := readlinesAux s.data []

/-- The fields of `DownloadOptions`
(src/data_classes/download_dataclass.py) that `AsyncFile.download` reads.
`checksum_archive` is a `bool` in the dataclass.  `fileobj` records
whether a file-like object was provided. -/
structure DownloadOptions where
  file_path : String := ""
  destdir : Option String := none
  ignore_existing : Bool := false
  ignore_errors : Bool := false
  stdout : Bool := false
  checksum : Bool := false
  checksum_archive : Bool := false
  retries : Nat := 2
  retries_sleep : Nat := 3
  no_change_timestamp : Bool := false
  return_responses : Bool := false
  fileobj : Bool := false
deriving DecidableEq

/-- The slice of the filesystem `download` touches: the size of the
destination file (`none` when absent) and the content of the hard-coded
ledger file `"_checksum_archive.txt"` (`none` when absent). -/
structure FS where
  destSize : Option Nat := none
  ledger : Option String := none
deriving DecidableEq

/-- How one call of `AsyncFile.download` ends: `return None` (a skip),
`return True` (success), `return False` (failure with `ignore_errors`),
returning the raw response, or an exception propagating to the caller.
`stuck` marks the model artefact of the finite transport script running
out while the loop was about to issue another request. -/
inductive Outcome where
  | retNone
  | retTrue
  | retFalse
  | retResponse
  | raised
  | stuck
deriving DecidableEq

/-- One transport answer to the GET of one attempt: any exception during
the attempt (network error, or a non-2xx status raised by
`raise_for_status`), or a successful response whose body is
`bodyLen` bytes.  (Last-Modified / `os.utime` effects are not tracked;
no claim mentions them.) -/
inductive Attempt where
  | fails
  | succeeds (bodyLen : Nat)
deriving DecidableEq

/-- The observable result of one `download` call: the outcome, the issued
GET requests (one entry per request, carrying the start offset of its
`Range: bytes=<n>-` header, `none` for a full request), the number of
inter-retry sleeps performed (each of duration `retries_sleep`), and the
final filesystem slice. -/
structure DlResult where
  outcome : Outcome
  requests : List (Option Nat)
  sleeps : Nat
  fs : FS
deriving DecidableEq

/-- src/file.py line 117 (and line 120): `aiofiles.os.path.exists(..)` is
called without `await`, so the value tested is a coroutine object, which
is truthy regardless of whether the file exists. -/
def existsCoroutineTruthy : Bool := true

/-- src/file.py line 146: `utils.get_md5(fp)` (an `async def`,
src/utils.py lines 5-13) is called without `await`, so `md5_sum` is a
coroutine object and `md5_sum == self.md5` is always `False`, whatever
the local file's hash and the remote `md5` are. -/
def md5CoroutineEqRemote (_localMd5 _remoteMd5 : Option String) : Bool :=
  false

/-- The `headers` update of one attempt (src/file.py lines 167-176): when
not in capture mode and the destination exists (this existence check is
awaited), a stat whose size differs from the remote size - with neither
checksum option set - installs `Range: bytes=<size>-`; in every other
case the previous `headers` value is kept. -/
def rangeHeader (opts : DownloadOptions) (remoteSize : Nat) (fs : FS)
    (headers : Option Nat) : Option Nat :=
  if !opts.return_responses then
    match fs.destSize with
    | some sz =>
        if sz ≠ remoteSize &&
            !(opts.checksum || opts.checksum_archive) then
          some sz
        else headers
    | none => headers
  else headers

/-- The retry loop of `AsyncFile.download` (src/file.py lines 161-246).
Arguments: the `headers` state (a `Range` start, `none` for the empty
dict - note `headers` is set once, before the loop), the
remaining `download_options.retries`, the filesystem slice, and the
transport script (one entry consumed per attempt). -/
def dlLoop (opts : DownloadOptions) (remoteSize : Nat) :
    Option Nat → Nat → FS → List Attempt → DlResult
  | _, _, fs, [] => ⟨.stuck, [], 0, fs⟩
  | headers, retries, fs, a :: rest =>
      let headers := rangeHeader opts remoteSize fs headers
      match a with
      | .fails =>
          if retries > 0 then
            let next := dlLoop opts remoteSize headers (retries - 1) fs rest
            ⟨next.outcome, headers :: next.requests, next.sleeps + 1,
             next.fs⟩
          else if opts.ignore_errors then ⟨.retFalse, [headers], 0, fs⟩
          else ⟨.raised, [headers], 0, fs⟩
      | .succeeds bodyLen =>
          if opts.return_responses then ⟨.retResponse, [headers], 0, fs⟩
          else if opts.stdout || opts.fileobj then
            ⟨.retTrue, [headers], 0, fs⟩
          else
            let newSize :=
              match headers with
              | some _ => fs.destSize.getD 0 + bodyLen
              | none => bodyLen
            ⟨.retTrue, [headers], 0, { fs with destSize := some newSize }⟩

/-- The tail of the pre-loop skip checks (src/file.py lines 138-159),
entered after the ledger check: `ignore_existing` skips; else with
`checksum` or `checksum_archive` set, the local file is opened (raising
`FileNotFoundError` when it does not exist) and the un-awaited
`get_md5` coroutine is compared with the remote md5 - always unequal, so
the loop is always entered.  (On a match the source would `return None`
and, with `checksum_archive`, append `file_path` plus a newline to the
file named by that boolean option.) -/
def afterLedger (opts : DownloadOptions) (remoteSize : Nat)
    (remoteMd5 localMd5 : Option String) (fs : FS)
    (script : List Attempt) : DlResult :=
  if opts.ignore_existing then ⟨.retNone, [], 0, fs⟩
  else if opts.checksum || opts.checksum_archive then
    match fs.destSize with
    | none => ⟨.raised, [], 0, fs⟩
    | some _ =>
        if md5CoroutineEqRemote localMd5 remoteMd5 then ⟨.retNone, [], 0, fs⟩
        else dlLoop opts remoteSize none opts.retries fs script
  else dlLoop opts remoteSize none opts.retries fs script

/-- `AsyncFile.download` (src/file.py lines 98-246).  `name` is the
file's normalized name, `remoteSize` its server-reported size,
`remoteMd5` its server-reported md5, `localMd5` the hash of the existing
destination content, `destdirIsFile` the result of the awaited
`isfile(destdir)` check, `fs` the filesystem slice and `script` the
transport's answers.  The line-117 existence test is an un-awaited
coroutine, hence truthy, so the skip block is entered whenever
`return_responses` is unset; inside it, a requested `checksum_archive`
reads the hard-coded `"_checksum_archive.txt"` (raising when absent,
since the line-120 create-if-absent check also tests a truthy coroutine
and never fires) and skips only when `file_path` is a member of its
`readlines()` list. -/
def download (opts : DownloadOptions) (name : String) (remoteSize : Nat)
    (remoteMd5 localMd5 : Option String) (destdirIsFile : Bool) (fs : FS)
    (script : List Attempt) : DlResult :=
  if opts.destdir.isSome && destdirIsFile then ⟨.raised, [], 0, fs⟩
  else
    let fp0 := if opts.file_path ≠ "" then opts.file_path else name
    let file_path :=
      match opts.destdir with
      | some d => d ++ "/" ++ fp0
      | none => fp0
    if !opts.return_responses && existsCoroutineTruthy then
      if opts.checksum_archive then
        match fs.ledger with
        | none => ⟨.raised, [], 0, fs⟩
        | some content =>
            if file_path ∈ readlines content then ⟨.retNone, [], 0, fs⟩
            else afterLedger opts remoteSize remoteMd5 localMd5 fs script
      else afterLedger opts remoteSize remoteMd5 localMd5 fs script
    else dlLoop opts remoteSize none opts.retries fs script

end Transfer

/-! ## Helper lemmas -/

namespace Transfer

/-- Recomputing the `Range` header a second time over an unchanged
filesystem changes nothing: the update either installs a value that does
not depend on the previous one, or keeps the previous one. -/
theorem rangeHeader_idem (opts : DownloadOptions) (rs : Nat) (fs : FS)
    (hd : Option Nat) :
    rangeHeader opts rs fs (rangeHeader opts rs fs hd) =
      rangeHeader opts rs fs hd := by
  unfold rangeHeader
  cases opts.return_responses <;> cases fs.destSize <;> simp
  split <;> simp_all

/-- One-step unfolding of the retry loop at a failing attempt. -/
theorem dlLoop_cons_fails (opts : DownloadOptions) (rs : Nat)
    (hd : Option Nat) (retries : Nat) (fs : FS) (rest : List Attempt) :
    dlLoop opts rs hd retries fs (.fails :: rest) =
      (if retries > 0 then
        ⟨(dlLoop opts rs (rangeHeader opts rs fs hd) (retries - 1) fs
            rest).outcome,
         rangeHeader opts rs fs hd ::
           (dlLoop opts rs (rangeHeader opts rs fs hd) (retries - 1) fs
             rest).requests,
         (dlLoop opts rs (rangeHeader opts rs fs hd) (retries - 1) fs
            rest).sleeps + 1,
         (dlLoop opts rs (rangeHeader opts rs fs hd) (retries - 1) fs
            rest).fs⟩
      else if opts.ignore_errors then
        ⟨.retFalse, [rangeHeader opts rs fs hd], 0, fs⟩
      else ⟨.raised, [rangeHeader opts rs fs hd], 0, fs⟩) := by
  rfl

/-- Running the retry loop with budget `N` against a transport that fails
`N + 1` times: every attempt issues one request with the same header,
each failure but the last is followed by one sleep, the filesystem is
untouched, and the loop ends in `return False` under `ignore_errors` and
in a propagated exception otherwise. -/
theorem dlLoop_all_fail (opts : DownloadOptions) (rs : Nat) (fs : FS) :
    ∀ (N : Nat) (hd : Option Nat),
      dlLoop opts rs hd N fs (List.replicate (N + 1) .fails) =
        ⟨if opts.ignore_errors then .retFalse else .raised,
         List.replicate (N + 1) (rangeHeader opts rs fs hd), N, fs⟩ := by
  intro N
  induction N with
  | zero =>
      intro hd
      by_cases hig : opts.ignore_errors <;> simp [dlLoop, hig]
  | succ n ih =>
      intro hd
      rw [List.replicate_succ, dlLoop_cons_fails]
      rw [if_pos (Nat.succ_pos n)]
      simp only [Nat.succ_sub_one]
      rw [ih (rangeHeader opts rs fs hd), rangeHeader_idem]
      simp [List.replicate_succ]

/-- A slash-stripped character list keeps every non-slash member of the
first `dropWhile`. -/
theorem mem_dropWhile_slash {l : List Char} {c : Char} (hm : c ∈ l)
    (hc : c ≠ '/') : c ∈ l.dropWhile (fun x => x == '/') := by
  have h := hm
  rw [← List.takeWhile_append_dropWhile (p := fun x => x == '/') (l := l)]
    at h
  rcases List.mem_append.mp h with h1 | h2
  · exact absurd (by simpa using List.mem_takeWhile_imp h1) hc
  · exact h2

/-- Stripping slashes from a list that contains a non-slash character
cannot empty it. -/
theorem stripSlashes_ne_nil {l : List Char} {c : Char} (hm : c ∈ l)
    (hc : c ≠ '/') : stripSlashes l ≠ [] := by
  unfold stripSlashes
  intro h
  have h1 := mem_dropWhile_slash hm hc
  have h2 : c ∈ (l.dropWhile (fun x => x == '/')).reverse :=
    List.mem_reverse.mpr h1
  have h3 := mem_dropWhile_slash h2 hc
  rw [List.reverse_eq_nil_iff.mp h] at h3
  exact absurd h3 (List.not_mem_nil c)

end Transfer

namespace Search

/-- Python dict lookup distributes over cons. -/
theorem pGet_cons_eq (p : String × PyV) (d : Params) (k : String) :
    pGet (p :: d) k = if p.1 == k then some p.2 else pGet d k := rfl

theorem pGet_pSet_self (d : Params) (k : String) (v : PyV) :
    pGet (pSet d k v) k = some v := by
  induction d with
  | nil => simp [pSet, pGet]
  | cons p rest ih =>
      unfold pSet
      by_cases h : (p.1 == k) = true
      · rw [if_pos h, pGet_cons_eq]
        simp
      · rw [if_neg h, pGet_cons_eq, if_neg h, ih]

theorem pGet_pSet_ne (d : Params) (k k' : String) (v : PyV)
    (h : k ≠ k') : pGet (pSet d k' v) k = pGet d k := by
  have hkk : (k' == k) = false := by
    simp
    exact fun hh => h hh.symm
  induction d with
  | nil =>
      simp [pSet, pGet, hkk]
  | cons p rest ih =>
      unfold pSet
      by_cases hp : (p.1 == k') = true
      · rw [if_pos hp, pGet_cons_eq, pGet_cons_eq]
        have h2 : (p.1 == k) = false := by
          simp at hp ⊢
          rw [hp]
          exact fun hh => h hh.symm
        rw [hkk, h2]
        simp
      · rw [if_neg hp, pGet_cons_eq, pGet_cons_eq, ih]

theorem pGet_pDel_ne (d : Params) (k k' : String) (h : k ≠ k') :
    pGet (pDel d k') k = pGet d k := by
  induction d with
  | nil => rfl
  | cons p rest ih =>
      simp only [pDel] at ih ⊢
      rw [List.filter_cons]
      by_cases hp : (p.1 != k') = true
      · rw [if_pos hp, pGet_cons_eq, pGet_cons_eq, ih]
      · rw [if_neg hp, ih, pGet_cons_eq]
        have h2 : (p.1 == k) = false := by
          simp at hp ⊢
          rw [hp]
          exact fun hh => h hh.symm
        rw [h2]
        simp

theorem pGet_eq_none_of_not_mem (d : Params) (k : String)
    (h : k ∉ d.map Prod.fst) : pGet d k = none := by
  induction d with
  | nil => rfl
  | cons p rest ih =>
      simp only [List.map_cons, List.mem_cons] at h
      push_neg at h
      rw [pGet_cons_eq]
      have h2 : (p.1 == k) = false := by
        simp
        exact fun hh => h.1 hh.symm
      rw [h2]
      simpa using ih h.2

theorem pHas_iff (d : Params) (k : String) :
    pHas d k = true ↔ k ∈ d.map Prod.fst := by
  simp [pHas, List.any_eq_true, List.mem_map]

theorem keys_pSet (d : Params) (k : String) (v : PyV) :
    (pSet d k v).map Prod.fst =
      if pHas d k then d.map Prod.fst else d.map Prod.fst ++ [k] := by
  induction d with
  | nil => simp [pSet, pHas]
  | cons p rest ih =>
      by_cases h : p.1 = k
      · simp [pSet, pHas, List.any_cons, h]
      · have hb : (p.1 == k) = false := by simpa using h
        simp only [pSet, pHas, List.any_cons]
        simp [h, ih, pHas]
        by_cases hr : (rest.any fun q => q.1 == k) = true <;>
          simp [hr, hb]

theorem nodup_keys_pSet (d : Params) (k : String) (v : PyV)
    (h : (d.map Prod.fst).Nodup) : ((pSet d k v).map Prod.fst).Nodup := by
  rw [keys_pSet]
  split
  · exact h
  · rename_i hh
    have hk : k ∉ d.map Prod.fst := fun hm => hh ((pHas_iff d k).mpr hm)
    simp [List.nodup_append, h, hk]

theorem nodup_keys_pDel (d : Params) (k : String)
    (h : (d.map Prod.fst).Nodup) : ((pDel d k).map Prod.fst).Nodup :=
  List.Nodup.sublist (List.Sublist.map Prod.fst (List.filter_sublist d)) h

theorem pGet_pUpdate (d u : Params) (hu : (u.map Prod.fst).Nodup)
    (k : String) :
    pGet (pUpdate d u) k =
      match pGet u k with
      | some v => some v
      | none => pGet d k := by
  induction u generalizing d with
  | nil => rfl
  | cons p u ih =>
      simp only [List.map_cons, List.nodup_cons] at hu
      obtain ⟨hp, hu'⟩ := hu
      show pGet (pUpdate (pSet d p.1 p.2) u) k = _
      rw [ih (pSet d p.1 p.2) hu']
      by_cases hk : k = p.1
      · subst hk
        rw [pGet_eq_none_of_not_mem u p.1 hp, pGet_pSet_self, pGet_cons_eq]
        simp
      · rw [pGet_pSet_ne _ _ _ _ hk, pGet_cons_eq]
        have h2 : (p.1 == k) = false := by
          simp
          exact fun hh => hk hh.symm
        rw [h2]
        simp


theorem pGet_match_index (c0 : Params) (k : String) (hk1 : k ≠ "scope")
    (hk2 : k ≠ "index") :
    pGet (match pGet c0 "index" with
          | some v => pDel (pSet c0 "scope" v) "index"
          | none => c0) k = pGet c0 k := by
  rcases h : pGet c0 "index" with _ | v
  · rfl
  · rw [pGet_pDel_ne _ _ _ hk2, pGet_pSet_ne _ _ _ _ hk1]

theorem nodup_match_index (c0 : Params)
    (h : (c0.map Prod.fst).Nodup) :
    ((match pGet c0 "index" with
      | some v => pDel (pSet c0 "scope" v) "index"
      | none => c0).map Prod.fst).Nodup := by
  rcases hi : pGet c0 "index" with _ | v
  · exact h
  · exact nodup_keys_pDel _ _ (nodup_keys_pSet _ _ _ h)

end Search

namespace QueryBuilder

/-- A quoted `field:"kw"` clause is never the empty string. -/
theorem clause_ne_empty (f kw : String) : clause f kw ≠ "" := by
  intro h
  have h2 := congrArg String.data h
  simp [clause, String.data_append] at h2

/-- A string of length zero is the empty string. -/
theorem str_eq_empty_of_length_zero {s : String} (h : s.length = 0) :
    s = "" := by
  cases s with
  | mk d =>
      cases d with
      | nil => rfl
      | cons c t => simp [String.length] at h

/-- Every part a field contributes to a group is a non-empty string:
quoted clauses are non-empty by shape, and the date string passed the
truthiness check. -/
theorem fieldParts_ne_empty (m : List (String × RuleVal)) (f : String) :
    ∀ s ∈ fieldParts m f, s ≠ "" := by
  intro s hs
  unfold fieldParts at hs
  split at hs
  · simp at hs
  · split at hs
    · simp at hs
    · split at hs
      · split at hs
        · rw [List.mem_singleton] at hs
          subst hs
          simp_all [RuleVal.falsy]
        · simp at hs
      · simp only [List.mem_append, List.mem_map] at hs
        rcases hs with (⟨kw, _, hkw⟩ | ⟨kw, _, hkw⟩) | ⟨kw, _, hkw⟩ <;>
          exact hkw ▸ clause_ne_empty f kw

/-- Every part of a whole group is non-empty. -/
theorem groupParts_ne_empty (m : List (String × RuleVal))
    (g : List String) : ∀ s ∈ groupParts m g, s ≠ "" := by
  intro s hs
  unfold groupParts at hs
  rcases List.mem_flatten.mp hs with ⟨parts, hp, hsp⟩
  rcases List.mem_map.mp hp with ⟨f, _, hf⟩
  exact fieldParts_ne_empty m f s (hf ▸ hsp)

/-- A joined string whose head is non-empty is non-empty. -/
theorem pyJoin_ne_empty_of_head (sep x : String) (xs : List String)
    (hx : x ≠ "") : pyJoin sep (x :: xs) ≠ "" := by
  cases xs with
  | nil => simpa [pyJoin] using hx
  | cons y ys =>
      intro h
      have h2 := congrArg String.length h
      rw [show pyJoin sep (x :: y :: ys) =
          x ++ sep ++ pyJoin sep (y :: ys) from rfl] at h2
      simp [String.length_append] at h2
      exact hx (str_eq_empty_of_length_zero (by omega))

/-- Every clause a group emits is non-empty, and a parenthesized clause
has a non-empty interior. -/
theorem groupClause?_ne_empty (m : List (String × RuleVal))
    (g : List String) : ∀ s, groupClause? m g = some s → s ≠ "" := by
  intro s hgc
  unfold groupClause? at hgc
  rcases hgp : groupParts m g with _ | ⟨p, _ | ⟨q, rest⟩⟩ <;>
    rw [hgp] at hgc
  · simp at hgc
  · simp only [Option.some.injEq] at hgc
    subst hgc
    exact groupParts_ne_empty m g p
      (by rw [hgp]; exact List.mem_singleton.mpr rfl)
  · simp only [Option.some.injEq] at hgc
    subst hgc
    intro h
    have h2 := congrArg String.data h
    simp [String.data_append] at h2

/-- Every NOT clause of one negative rule is non-empty. -/
theorem negParts_ne_empty (r : NegRule) : ∀ s ∈ negParts r, s ≠ "" := by
  intro s hs
  unfold negParts at hs
  split at hs
  · split at hs
    · rcases List.mem_map.mp hs with ⟨kw, _, hkw⟩
      intro h
      have h2 := congrArg String.data (hkw.trans h)
      simp [clause, String.data_append] at h2
    · simp at hs
  · simp at hs

/-- Every NOT clause is non-empty. -/
theorem notQueries_ne_empty (rules : List NegRule) :
    ∀ s ∈ notQueries rules, s ≠ "" := by
  intro s hs
  unfold notQueries at hs
  rcases List.mem_flatten.mp hs with ⟨parts, hp, hsp⟩
  rcases List.mem_map.mp hp with ⟨r, _, hr⟩
  exact negParts_ne_empty r s (hr ▸ hsp)

end QueryBuilder

/-! ## Claims -/

open QueryBuilder Search Transfer

/-- C1: for a download whose every attempt fails with a transport-level
error, with retry budget `N` the transfer performs exactly `N` retries
(`N + 1` attempts, each followed by the configured inter-retry sleep
except the last) and then, if ignore-errors is set, returns a Failed
outcome; otherwise it propagates the error to the caller as fatal. -/
theorem claim_c1_retry_budget (opts : DownloadOptions) (name : String)
    (remoteSize N : Nat) (rMd5 lMd5 : Option String) (fs : FS)
    (hret : opts.retries = N)
    (hrr : opts.return_responses = false)
    (harch : opts.checksum_archive = false)
    (hie : opts.ignore_existing = false)
    (hcs : opts.checksum = false) :
    (download opts name remoteSize rMd5 lMd5 false fs
        (List.replicate (N + 1) .fails)).requests.length = N + 1 ∧
    (download opts name remoteSize rMd5 lMd5 false fs
        (List.replicate (N + 1) .fails)).sleeps = N ∧
    (download opts name remoteSize rMd5 lMd5 false fs
        (List.replicate (N + 1) .fails)).outcome =
      (if opts.ignore_errors then .retFalse else .raised) := by
  have hdl : download opts name remoteSize rMd5 lMd5 false fs
      (List.replicate (N + 1) .fails) =
      dlLoop opts remoteSize none N fs (List.replicate (N + 1) .fails) := by
    simp [download, afterLedger, hrr, harch, hie, hcs,
      existsCoroutineTruthy, hret]
  rw [hdl, dlLoop_all_fail]
  simp

/-- Witness for C1 at `N = 2`: three attempts, two sleeps. -/
theorem claim_c1_retry_budget_witness :
    (download { retries := 2 } "f" 100 none none false {}
        (List.replicate 3 .fails)).requests.length = 3 ∧
    (download { retries := 2 } "f" 100 none none false {}
        (List.replicate 3 .fails)).sleeps = 2 := by
  have h := claim_c1_retry_budget { retries := 2 } "f" 100 2 none none {}
    rfl rfl rfl rfl rfl
  exact ⟨h.1, h.2.1⟩

/-- C2 (code bug evidence): against a transport answering two non-empty
item batches and then an empty `items` array, `_scrape` yields exactly
the concatenation of the two batches - but it does NOT terminate on the
empty list: after the third response the loop is still running
(`terminated = false`), and with a fourth response available it issues a
fourth request.  The source loop breaks only on exceptions (an absent
`items` key raises `KeyError`); an empty present list just restarts it. -/
theorem claim_c2_scrape_empty_items_no_stop :
    (scrapeRun [.ok { items? := some ["a", "b"] },
                .ok { items? := some ["c"] },
                .ok { items? := some [] }] =
      ⟨[.item "a", .item "b", .item "c"], 3, false⟩) ∧
    (scrapeRun [.ok { items? := some ["a", "b"] },
                .ok { items? := some ["c"] },
                .ok { items? := some [] },
                .ok { items? := some [] }]).requests = 4 := by
  exact ⟨rfl, rfl⟩

/-- C3 (code bug evidence): with checksum verification active, an
existing destination whose hash equals the remote md5 is NOT skipped:
src/file.py line 146 calls the `async` `utils.get_md5` without `await`,
so the comparison is between a coroutine object and the md5 string and is
always false; the transfer issues a full GET and rewrites the file. -/
theorem claim_c3_checksum_match_not_skipped :
    download { checksum := true } "f.txt" 100 (some "0123abcd")
        (some "0123abcd") false { destSize := some 100 }
        [.succeeds 100] =
      ⟨.retTrue, [none], 0, { destSize := some 100 }⟩ := by
  rfl

/-- C4 (code bug evidence): when a fixed result size was requested
(`"size"` in the params), `data["scroll"]` is the string `"False"`, and
the loop's stop test `data["scroll"] is False` compares it to the bool by
identity - always false - so a transport answering non-empty hit batches
receives a second request instead of exactly one. -/
theorem claim_c4_size_mode_second_request :
    ftsRun (ftsScrollVal true)
        [.ok { hits? := some ["h1"] }, .ok { hits? := some ["h2"] }] =
      ⟨[["h1"], ["h2"]], 2, false⟩ := by
  rfl

/-- C5: the Query Builder is a pure function (building twice from the
same ruleset yields identical strings), and the three concrete rulesets
of the claim produce exactly the claimed strings. -/
theorem claim_c5_query_builder_examples :
    (∀ cfg : Config, build cfg = build cfg) ∧
    build { to_be := [{ field? := some "creator",
                        logic := [("alone", ["Doe"])] }],
            groups := [["creator"]] } = "creator:\"Doe\"" ∧
    build { to_be := [{ field? := some "field1",
                        logic := [("alone", ["a"])] },
                      { field? := some "field2",
                        logic := [("alone", ["b"])] }],
            groups := [["field1", "field2"]] } =
      "(field1:\"a\" OR field2:\"b\")" ∧
    build { to_be := [{ field? := some "field1",
                        logic := [("alone", ["a"])] },
                      { field? := some "field2",
                        logic := [("alone", ["b"])] }],
            groups := [["field1", "field2"]],
            not_to_be := [{ field? := some "lang",
                            logic := [("alone", ["x"])] }] } =
      "(field1:\"a\" OR field2:\"b\") AND NOT lang:\"x\"" := by
  exact ⟨fun _ => rfl, rfl, rfl, rfl⟩

/-- Witness for C5 at the empty ruleset. -/
theorem claim_c5_query_builder_examples_witness :
    build {} = build ({} : Config) :=
  claim_c5_query_builder_examples.1 {}

/-- C6: the Query Builder flattens a field's `and`, `or` and `alone`
keyword lists into one OR-joined group; a group producing more than one
clause is parenthesized with a non-empty interior, a group producing
exactly one clause is emitted bare, and a group producing zero clauses is
omitted; every emitted clause is non-empty (so the `filter(None, ..)` of
the source drops nothing and the output never contains empty
parentheses); the final string is the AND-join of all group clauses
followed by all NOT clauses, in that order, and the empty ruleset yields
the empty string. -/
theorem claim_c6_output_structure :
    (∀ cfg : Config, build cfg = buildSpec cfg) ∧
    build ({} : Config) = "" ∧
    (∀ (m : List (String × RuleVal)) (f : String) (l : Logic),
        mapGet m f = some (.logic l) → l ≠ [] →
        fieldParts m f =
          (logicGet l "and" ++ logicGet l "or" ++
            logicGet l "alone").map (clause f)) ∧
    (∀ m g, groupParts m g = [] → groupClause? m g = none) ∧
    (∀ m g p, groupParts m g = [p] → groupClause? m g = some p) ∧
    (∀ m g p q rest, groupParts m g = p :: q :: rest →
        ∃ mid, groupClause? m g = some ("(" ++ mid ++ ")") ∧ mid ≠ "") ∧
    (∀ (cfg : Config) (s : String),
        s ∈ cfg.groups.filterMap (groupClause? (positiveRulesMap cfg.to_be))
            ++ notQueries cfg.not_to_be → s ≠ "") := by
  have hne : ∀ (cfg : Config) (s : String),
      s ∈ cfg.groups.filterMap (groupClause? (positiveRulesMap cfg.to_be))
          ++ notQueries cfg.not_to_be → s ≠ "" := by
    intro cfg s hs
    rcases List.mem_append.mp hs with h | h
    · rcases List.mem_filterMap.mp h with ⟨g, _, hg⟩
      exact groupClause?_ne_empty _ g s hg
    · exact notQueries_ne_empty _ s h
  refine ⟨?_, rfl, ?_, ?_, ?_, ?_, hne⟩
  · intro cfg
    unfold build buildSpec
    dsimp only
    congr 1
    apply List.filter_eq_self.mpr
    intro a ha
    simpa using hne cfg a ha
  · intro m f l hmg hl
    unfold fieldParts
    rw [hmg]
    have hfalsy : (RuleVal.logic l).falsy = false := by
      simp [RuleVal.falsy, hl]
    simp [hfalsy, List.map_append]
  · intro m g h
    unfold groupClause?
    rw [h]
  · intro m g p h
    unfold groupClause?
    rw [h]
  · intro m g p q rest h
    refine ⟨pyJoin " OR " (p :: q :: rest), ?_, ?_⟩
    · unfold groupClause?
      rw [h]
    · exact pyJoin_ne_empty_of_head " OR " p (q :: rest)
        (groupParts_ne_empty m g p (by rw [h]; exact List.mem_cons_self p _))

/-- Witness for C6 at the empty ruleset. -/
theorem claim_c6_output_structure_witness :
    build ({} : Config) = buildSpec ({} : Config) :=
  claim_c6_output_structure.1 {}

/-- C7: for a remote file of size `S` and an existing destination of size
`L`, with verification disabled and `L ≠ S` the single request carries
`Range: bytes=<L>-` and on success the body is appended, the file ending
at `L + b` (which is `S` when the server sends the remaining `S - L`
bytes); when the sizes match, or when checksum verification is active,
the single request carries no Range header and the body is written from
scratch. -/
theorem claim_c7_range_resume (opts : DownloadOptions) (name : String)
    (S L b : Nat) (rMd5 lMd5 : Option String) (led : Option String)
    (hrr : opts.return_responses = false)
    (hso : opts.stdout = false)
    (hfo : opts.fileobj = false)
    (harch : opts.checksum_archive = false)
    (hie : opts.ignore_existing = false) :
    (opts.checksum = false → L ≠ S →
      download opts name S rMd5 lMd5 false
          { destSize := some L, ledger := led } [.succeeds b] =
        ⟨.retTrue, [some L], 0,
         { destSize := some (L + b), ledger := led }⟩) ∧
    (opts.checksum = false → L = S →
      download opts name S rMd5 lMd5 false
          { destSize := some L, ledger := led } [.succeeds b] =
        ⟨.retTrue, [none], 0, { destSize := some b, ledger := led }⟩) ∧
    (opts.checksum = true →
      download opts name S rMd5 lMd5 false
          { destSize := some L, ledger := led } [.succeeds b] =
        ⟨.retTrue, [none], 0, { destSize := some b, ledger := led }⟩) := by
  refine ⟨?_, ?_, ?_⟩
  · intro hcs hLS
    simp [download, afterLedger, dlLoop, rangeHeader, hrr, hso, hfo,
      harch, hie, hcs, hLS, existsCoroutineTruthy, md5CoroutineEqRemote]
  · intro hcs hLS
    subst hLS
    simp [download, afterLedger, dlLoop, rangeHeader, hrr, hso, hfo,
      harch, hie, hcs, existsCoroutineTruthy, md5CoroutineEqRemote]
  · intro hcs
    simp [download, afterLedger, dlLoop, rangeHeader, hrr, hso, hfo,
      harch, hie, hcs, existsCoroutineTruthy, md5CoroutineEqRemote]

/-- Witness for C7: remote size 100, an existing 40-byte local file, a 60-byte
body: one request with `Range: bytes=40-`, final size 100. -/
theorem claim_c7_range_resume_witness :
    ((40 : Nat) ≠ 100 ∧ ({} : DownloadOptions).checksum = false) ∧
    download {} "f" 100 none none false { destSize := some 40 }
        [.succeeds 60] =
      ⟨.retTrue, [some 40], 0, { destSize := some 100 }⟩ := by
  have h := (claim_c7_range_resume {} "f" 100 40 60 none none none
    rfl rfl rfl rfl rfl).1 rfl (by decide)
  exact ⟨⟨by decide, rfl⟩, h⟩

/-- C8 (code bug evidence): with the ledger containing exactly the
destination path as the code's own append writes it (path plus a trailing
newline), `download` does NOT skip: `readlines()` keeps the newline in
each line, so the membership test of the bare path fails, and the
transfer re-downloads.  Furthermore, when the hard-coded ledger file
`"_checksum_archive.txt"` is absent it is never created - the
create-if-absent test at src/file.py line 120 checks an un-awaited,
always-truthy coroutine - and opening it for reading raises. -/
theorem claim_c8_ledger_hit_not_skipped :
    readlines "dest.txt\n" = ["dest.txt\n"] ∧
    download { checksum_archive := true } "dest.txt" 100 none none false
        { destSize := some 40, ledger := some "dest.txt\n" }
        [.succeeds 100] =
      ⟨.retTrue, [none], 0,
       { destSize := some 100, ledger := some "dest.txt\n" }⟩ ∧
    (download { checksum_archive := true } "dest.txt" 100 none none false
        { destSize := some 40, ledger := none } [.succeeds 100]).outcome =
      .raised := by
  refine ⟨rfl, ?_, rfl⟩
  rfl

/-- C9 (counterexample): the input name `"/"` is truthy, is stripped to
the empty string, and is stored as the empty name - the claimed invariant
fails. -/
theorem claim_c9_counterexample : normalizeName "/" = "" := by
  rfl

/-- C9 (amended): for every input name that contains at least one
character other than `'/'`, the stored file name after normalization is
non-empty. -/
theorem claim_c9_amended (name : String) (c : Char)
    (hmem : c ∈ name.data) (hc : c ≠ '/') :
    normalizeName name ≠ "" := by
  have hne : name ≠ "" := by
    intro h
    subst h
    simp at hmem
  unfold normalizeName
  rw [if_pos hne]
  intro h
  exact stripSlashes_ne_nil hmem hc (congrArg String.data h)

/-- Witness for the amended C9 at name `"/a"` and character `'a'`. -/
theorem claim_c9_amended_witness :
    ('a' ∈ "/a".data ∧ 'a' ≠ '/') ∧ normalizeName "/a" ≠ "" :=
  ⟨by decide, claim_c9_amended "/a" 'a' (by decide) (by decide)⟩


/-- C10: in the Pagination Engine query normalization, caller-supplied
parameters take precedence over every default the engine injects: the
final parameter map is the injected defaults updated with the caller's
params, so a caller-supplied `"q"` entry silently replaces the query
string from the options, and only when the caller supplies no `"q"` does
the final map carry the (possibly `"!L "`-marked) option query. -/
theorem claim_c10_caller_param_precedence (so : SearchOptions)
    (hnd : (so.params.map Prod.fst).Nodup) :
    (∀ v, pGet so.params "q" = some v →
        pGet (initNormalize so).params "q" = some v) ∧
    (pGet so.params "q" = none →
        pGet (initNormalize so).params "q" =
          some (.str (initNormalize so).query)) := by
  have hq : (initNormalize so).query =
      (if (so.dsl_fts || so.fts) && !so.dsl_fts then "!L " ++ so.query
       else so.query) := by
    unfold initNormalize
    by_cases hpage : pHas so.params "page" = true <;>
      by_cases hrows : pHas so.params "rows" = true <;>
      simp [hpage, hrows]
  rw [hq]
  constructor
  · intro v hv
    by_cases hpage : pHas so.params "page" = true <;>
      by_cases hrows : pHas so.params "rows" = true <;>
      simp only [initNormalize, hpage, hrows] <;>
      simp only [Bool.not_true, Bool.not_false] <;>
      simp only [if_true, if_false, Bool.false_eq_true, ite_false,
        ite_true] <;>
      first
      | (rw [pGet_pUpdate _ _ (nodup_match_index so.params hnd)]
         rw [pGet_match_index so.params "q" (by decide) (by decide), hv])
      | (rw [pGet_pUpdate _ _
           (nodup_match_index _ (nodup_keys_pSet _ _ _ hnd))]
         rw [pGet_match_index _ "q" (by decide) (by decide)]
         rw [pGet_pSet_ne _ _ _ _ (by decide), hv])
  · intro hv
    by_cases hpage : pHas so.params "page" = true <;>
      by_cases hrows : pHas so.params "rows" = true <;>
      simp only [initNormalize, hpage, hrows] <;>
      simp only [Bool.not_true, Bool.not_false] <;>
      simp only [if_true, if_false, Bool.false_eq_true, ite_false,
        ite_true] <;>
      first
      | (rw [pGet_pUpdate _ _ (nodup_match_index so.params hnd)]
         rw [pGet_match_index so.params "q" (by decide) (by decide), hv]
         rfl)
      | (rw [pGet_pUpdate _ _
           (nodup_match_index _ (nodup_keys_pSet _ _ _ hnd))]
         rw [pGet_match_index _ "q" (by decide) (by decide)]
         rw [pGet_pSet_ne _ _ _ _ (by decide), hv]
         rfl)

/-- Witness for C10: a caller-supplied `q` of `"dogs"` overrides the
option query `"cats"`. -/
theorem claim_c10_caller_param_precedence_witness :
    (([("q", PyV.str "dogs")] : Params).map Prod.fst).Nodup ∧
    pGet (initNormalize { query := "cats", params := [("q", .str "dogs")] }).params "q" =
      some (.str "dogs") := by
  have h := (claim_c10_caller_param_precedence
    { query := "cats", params := [("q", .str "dogs")] } (by simp)).1
    (.str "dogs") rfl
  exact ⟨by simp, h⟩

end Ollekia
